import Mathlib

/-!
# Verification of the slot backend's drop admission and streak logic

This development shallowly embeds the business logic of the two backend
source files (`src/server.js`, the PostgreSQL variant, and the unnamed
better-sqlite3 variant): the `POST /api/drop` admission and streak
transition, the admin maintenance endpoints, and the config store.

Modelling conventions:
* Calendar days (the `YYYY-MM-DD` strings produced by
  `new Date(ms).toISOString().slice(0, 10)`) are represented by their day
  index `ms.fdiv 86400000 : Int`; two instants produce the same slice
  exactly when they have the same day index.
* JS numbers that can be `NaN` are represented by `Option Int`
  (`none` = `NaN`); `parseInt` yields `none` where JS yields `NaN`, and
  `x >= NaN` is `false`, `Math.min(x, NaN)` is `NaN`, as in JS.
* The database tables `drops`, `streaks`, `config` are lists of rows; the
  primary-key uniqueness of `streaks.device_hash` and `config.key` is a
  proved reachability invariant, not an assumption.
-/

namespace SlotBackend

/-- Calendar-day index of an epoch-milliseconds instant: the `YYYY-MM-DD`
day identifier produced by `new Date(ms).toISOString().slice(0, 10)`,
represented as the floored number of days since the epoch. -/
def epochDay (ms : Int) : Int := ms.fdiv 86400000

/-- `today` as computed at the start of a request:
`new Date().toISOString().slice(0, 10)` with `nowMs` the clock reading. -/
def todayOf (nowMs : Int) : Int := epochDay nowMs

/-- `yesterday` as computed inside the streak block:
`new Date(Date.now() - 86400000).toISOString().slice(0, 10)` with `nowMs`
the (second) clock reading taken at that point. -/
def yesterdayOf (nowMs : Int) : Int := epochDay (nowMs - 86400000)

/-- JS `parseInt(s)` restricted to its decimal path, as the config values
use it: trim whitespace, optional sign, then the longest prefix of decimal
digits; `none` models `NaN` (no digits). The automatic radix-16 detection
on a `0x` prefix is not modelled; no config value in this system is hex. -/
def parseIntOpt (s : String) : Option Int :=
  let cs := s.toList.dropWhile Char.isWhitespace
  match cs with
  | '-' :: rest =>
      let ds := rest.takeWhile Char.isDigit
      if ds.isEmpty then none
      else some (-(ds.foldl (fun a c => 10 * a + (c.toNat - 48)) 0 : Nat))
  | '+' :: rest =>
      let ds := rest.takeWhile Char.isDigit
      if ds.isEmpty then none
      else some (ds.foldl (fun a c => 10 * a + (c.toNat - 48)) 0 : Nat)
  | _ =>
      let ds := cs.takeWhile Char.isDigit
      if ds.isEmpty then none
      else some (ds.foldl (fun a c => 10 * a + (c.toNat - 48)) 0 : Nat)

/-- One row of the `drops` table. `charCount` is `Option Int` because the
clamp `Math.min(charCount, parseInt(config.max_chars))` is `NaN` when
`max_chars` does not parse. `day` is the calendar day of `created_at`,
the value `DATE(created_at)` compares against. -/
structure Drop where
  deviceHash : String
  mode : String
  charCount : Option Int
  day : Int
  deriving Repr, DecidableEq

/-- One row of the `streaks` table; `lastDropDate` is nullable. -/
structure Streak where
  deviceHash : String
  current : Int
  longest : Int
  lastDropDate : Option Int
  deriving Repr, DecidableEq

/-- The three tables. `config` is the key/value table (`key` is a primary
key; uniqueness is maintained by the seeded/upsert operations). -/
structure DB where
  drops : List Drop
  streaks : List Streak
  config : List (String × String)
  deriving Repr, DecidableEq

/-- `config[key]` as the route handlers build it (`undefined` = `none`). -/
def configLookup (cfg : List (String × String)) (key : String) : Option String :=
  (cfg.find? (fun p => p.fst == key)).map Prod.snd

/-- `config[key] || dflt`: JS `||` falls through to the default both when
the key is absent and when the stored value is the empty string (the only
falsy string). -/
def configGetD (cfg : List (String × String)) (key dflt : String) : String :=
  match configLookup cfg key with
  | some v => if v = "" then dflt else v
  | none => dflt

/-- `SELECT COUNT(*) FROM drops WHERE device_hash = ? AND DATE(created_at) = ?`. -/
def countDeviceToday (drops : List Drop) (h : String) (today : Int) : Nat :=
  (drops.filter (fun d => d.deviceHash == h && d.day == today)).length

/-- `SELECT COUNT(*) FROM drops WHERE DATE(created_at) = ?`. -/
def countAllToday (drops : List Drop) (today : Int) : Nat :=
  (drops.filter (fun d => d.day == today)).length

/-- `userDrops >= maxDrops` in JS: comparison against `NaN` is `false`,
so an unparseable `drops_per_day` never triggers the cap. -/
def capReached (userDrops : Nat) (maxDrops : Option Int) : Bool :=
  match maxDrops with
  | some n => decide ((userDrops : Int) ≥ n)
  | none => false

/-- `Math.min(charCount, parseInt(config.max_chars || '200'))`: `NaN`
(`none`) propagates. -/
def clampChar (c : Int) (maxChars : Option Int) : Option Int :=
  maxChars.map (fun m => min c m)

/-- `SELECT * FROM streaks WHERE device_hash = ?` (first matching row). -/
def findStreak (ss : List Streak) (h : String) : Option Streak :=
  ss.find? (fun s => s.deviceHash == h)

/-- `UPDATE streaks SET ... WHERE device_hash = ?`: every row whose key
matches `s.deviceHash` is replaced by `s`; other rows are untouched. -/
def setStreak (ss : List Streak) (s : Streak) : List Streak :=
  ss.map (fun t => if t.deviceHash == s.deviceHash then s else t)

/-- The streak update applied when a row already exists (src/server.js
lines 182-193): `newStreak` is `current + 1` when `last_drop_date`
equals `yesterday`, unchanged when it equals `today`, else `1`; then
`longest = max(newStreak, longest)` and `last_drop_date = today`. -/
def streakTransition (s : Streak) (today yesterday : Int) : Streak :=
  let newStreak : Int :=
    if s.lastDropDate = some yesterday then s.current + 1
    else if s.lastDropDate = some today then s.current
    else 1
  { s with
      current := newStreak
      longest := max newStreak s.longest
      lastDropDate := some today }

/-- The whole streak block of `POST /api/drop`: update the existing row
through `streakTransition`, or insert a fresh `(1, 1, today)` row. -/
def streakUpsert (ss : List Streak) (h : String) (today yesterday : Int) :
    List Streak :=
  match findStreak ss h with
  | some s => setStreak ss (streakTransition s today yesterday)
  | none =>
      ss ++ [{ deviceHash := h, current := 1, longest := 1,
               lastDropDate := some today }]

/-- Error responses of `POST /api/drop` (HTTP 429 / 400 / 403). -/
inductive DropError where
  | AlreadyDroppedToday
  | InvalidMode
  | ModeDisabled
  deriving Repr, DecidableEq

/-- Request body of `POST /api/drop`; `none` models an absent JSON field,
so that the destructuring defaults `mode = 'type'`, `charCount = 0` apply. -/
structure DropRequest where
  mode : Option String
  charCount : Option Int
  deriving Repr, DecidableEq

/-- `validModes = ['type', 'speak', 'draw']`. -/
def validModes : List String := ["type", "speak", "draw"]

/-- The Drop row inserted by a successful `POST /api/drop`:
`INSERT INTO drops (device_hash, mode, char_count) VALUES (?, ?, ?)` with
the clamp `Math.min(charCount, parseInt(config.max_chars || '200'))`. -/
def mkDrop (db : DB) (deviceHash : String) (req : DropRequest) (today : Int) :
    Drop :=
  { deviceHash := deviceHash
    mode := req.mode.getD "type"
    charCount := clampChar (req.charCount.getD 0)
      (parseIntOpt (configGetD db.config "max_chars" "200"))
    day := today }

/-- The `POST /api/drop` handler (identical logic in both source files).
`today` and `yesterday` are passed in because the handler derives them
from two separate clock reads: `today` from `new Date()` at the start of
the request and `yesterday` from `Date.now()` inside the streak block;
see `todayOf` and `yesterdayOf`. Returns the response together with the
database left behind. -/
def submitDrop (db : DB) (deviceHash : String) (req : DropRequest)
    (today yesterday : Int) : Except DropError Nat × DB :=
  let mode := req.mode.getD "type"
  let maxDrops := parseIntOpt (configGetD db.config "drops_per_day" "1")
  let userDrops := countDeviceToday db.drops deviceHash today
  if capReached userDrops maxDrops then
    (Except.error DropError.AlreadyDroppedToday, db)
  else if !(validModes.contains mode) then
    (Except.error DropError.InvalidMode, db)
  else if configLookup db.config (mode ++ "_enabled") = some "false" then
    (Except.error DropError.ModeDisabled, db)
  else
    let drops' := db.drops ++ [mkDrop db deviceHash req today]
    let streaks' := streakUpsert db.streaks deviceHash today yesterday
    (Except.ok (countAllToday drops' today),
     { db with drops := drops', streaks := streaks' })

/-- `POST /api/admin/drop`: unconditional insert under identity `admin`,
no cap check, no clamp, no streak update. -/
def adminDrop (db : DB) (req : DropRequest) (today : Int) : DB :=
  { db with
      drops := db.drops ++
        [{ deviceHash := "admin", mode := req.mode.getD "type",
           charCount := some (req.charCount.getD 0), day := today }] }

/-- `POST /api/admin/reset-streaks`: `UPDATE streaks SET current_streak = 0`. -/
def resetStreaks (db : DB) : DB :=
  { db with streaks := db.streaks.map (fun s => { s with current := 0 }) }

/-- `POST /api/admin/reset-counter`:
`DELETE FROM drops WHERE DATE(created_at) = today`. -/
def resetCounter (db : DB) (today : Int) : DB :=
  { db with drops := db.drops.filter (fun d => !(d.day == today)) }

/-- One `INSERT ... ON CONFLICT (key) DO UPDATE SET value` /
`INSERT OR REPLACE` on the config table. -/
def configUpsertOne (cfg : List (String × String)) (key value : String) :
    List (String × String) :=
  if cfg.any (fun p => p.fst == key) then
    cfg.map (fun p => if p.fst == key then (key, value) else p)
  else cfg ++ [(key, value)]

/-- `PUT /api/admin/config`, PostgreSQL variant (src/server.js lines
303-317): the pairs are written by individual auto-committed queries in a
plain loop with no enclosing transaction, so a failure after `k`
successful writes leaves exactly the first `k` pairs applied. `failAfter
= none` models the failure-free run; `failAfter = some k` models the
`(k+1)`-th query failing. Returns whether the call succeeded and the
config state left behind. -/
def configPutPg (cfg : List (String × String))
    (updates : List (String × String)) (failAfter : Option Nat) :
    Bool × List (String × String) :=
  match failAfter with
  | none => (true, updates.foldl (fun c kv => configUpsertOne c kv.1 kv.2) cfg)
  | some k =>
      (false, (updates.take k).foldl (fun c kv => configUpsertOne c kv.1 kv.2) cfg)

/-- `PUT /api/admin/config`, better-sqlite3 variant (part_000 lines
235-245): the same loop runs inside `db.transaction(...)`, so on failure
the transaction rolls back and the stored config is unchanged. -/
def configPutSqlite (cfg : List (String × String))
    (updates : List (String × String)) (fails : Bool) :
    Bool × List (String × String) :=
  if fails then (false, cfg)
  else (true, updates.foldl (fun c kv => configUpsertOne c kv.1 kv.2) cfg)

/-- The seeded default config (`defaults` in both source files). -/
def defaultConfig : List (String × String) :=
  [("type_enabled", "true"), ("speak_enabled", "true"),
   ("draw_enabled", "true"), ("streaks_enabled", "true"),
   ("global_drops_visible", "true"), ("live_counter_visible", "true"),
   ("seasonal_accent", "true"), ("max_chars", "200"),
   ("drops_per_day", "1"), ("announcement", "")]

/-- The database as `initDB` leaves it on first start: empty tables,
default config seeded. -/
def initialDB : DB :=
  { drops := [], streaks := [], config := defaultConfig }

/-! ## Basic lemmas about the admission path -/

/-- The cap rejection: when the cap check fires, the handler returns 429
and leaves the database untouched. -/
theorem submitDrop_of_cap (db : DB) (dh : String) (req : DropRequest)
    (t y : Int)
    (h : capReached (countDeviceToday db.drops dh t)
      (parseIntOpt (configGetD db.config "drops_per_day" "1")) = true) :
    submitDrop db dh req t y = (Except.error DropError.AlreadyDroppedToday, db) := by
  simp [submitDrop, h]

/-- The invalid-mode rejection. -/
theorem submitDrop_of_invalid (db : DB) (dh : String) (req : DropRequest)
    (t y : Int)
    (hcap : capReached (countDeviceToday db.drops dh t)
      (parseIntOpt (configGetD db.config "drops_per_day" "1")) = false)
    (hm : validModes.contains (req.mode.getD "type") = false) :
    submitDrop db dh req t y = (Except.error DropError.InvalidMode, db) := by
  have hm' : req.mode.getD "type" ∉ validModes := by simpa using hm
  simp [submitDrop, hcap, hm']

/-- The disabled-mode rejection. -/
theorem submitDrop_of_disabled (db : DB) (dh : String) (req : DropRequest)
    (t y : Int)
    (hcap : capReached (countDeviceToday db.drops dh t)
      (parseIntOpt (configGetD db.config "drops_per_day" "1")) = false)
    (hm : validModes.contains (req.mode.getD "type") = true)
    (hd : configLookup db.config ((req.mode.getD "type") ++ "_enabled") =
      some "false") :
    submitDrop db dh req t y = (Except.error DropError.ModeDisabled, db) := by
  have hm' : req.mode.getD "type" ∈ validModes := by simpa using hm
  simp [submitDrop, hcap, hm', hd]

/-- A request that passes all three checks inserts exactly one Drop row
and performs exactly the streak upsert. -/
theorem submitDrop_of_pass (db : DB) (dh : String) (req : DropRequest)
    (t y : Int)
    (hcap : capReached (countDeviceToday db.drops dh t)
      (parseIntOpt (configGetD db.config "drops_per_day" "1")) = false)
    (hm : validModes.contains (req.mode.getD "type") = true)
    (hd : configLookup db.config ((req.mode.getD "type") ++ "_enabled") ≠
      some "false") :
    submitDrop db dh req t y =
      (Except.ok (countAllToday (db.drops ++ [mkDrop db dh req t]) t),
       { db with drops := db.drops ++ [mkDrop db dh req t],
                 streaks := streakUpsert db.streaks dh t y }) := by
  have hm' : req.mode.getD "type" ∈ validModes := by simpa using hm
  simp [submitDrop, hcap, hm', hd]

/-- Every run of the handler either fails changing nothing or succeeds
with exactly the one-insert-one-upsert shape. -/
theorem submitDrop_cases (db : DB) (dh : String) (req : DropRequest)
    (t y : Int) :
    ((∃ e, (submitDrop db dh req t y).1 = Except.error e) ∧
      (submitDrop db dh req t y).2 = db) ∨
    submitDrop db dh req t y =
      (Except.ok (countAllToday (db.drops ++ [mkDrop db dh req t]) t),
       { db with drops := db.drops ++ [mkDrop db dh req t],
                 streaks := streakUpsert db.streaks dh t y }) := by
  by_cases hcap : capReached (countDeviceToday db.drops dh t)
      (parseIntOpt (configGetD db.config "drops_per_day" "1")) = true
  · left
    rw [submitDrop_of_cap db dh req t y hcap]
    exact ⟨⟨_, rfl⟩, rfl⟩
  · have hcap' : capReached (countDeviceToday db.drops dh t)
        (parseIntOpt (configGetD db.config "drops_per_day" "1")) = false :=
      Bool.eq_false_iff.mpr hcap
    by_cases hm : validModes.contains (req.mode.getD "type") = true
    · by_cases hd : configLookup db.config ((req.mode.getD "type") ++ "_enabled") =
          some "false"
      · left
        rw [submitDrop_of_disabled db dh req t y hcap' hm hd]
        exact ⟨⟨_, rfl⟩, rfl⟩
      · right
        exact submitDrop_of_pass db dh req t y hcap' hm hd
    · left
      have hm' : validModes.contains (req.mode.getD "type") = false :=
        Bool.eq_false_iff.mpr hm
      rw [submitDrop_of_invalid db dh req t y hcap' hm']
      exact ⟨⟨_, rfl⟩, rfl⟩

/-- Failure paths perform zero mutations. -/
theorem submitDrop_snd_of_error (db : DB) (dh : String) (req : DropRequest)
    (t y : Int) (e : DropError)
    (h : (submitDrop db dh req t y).1 = Except.error e) :
    (submitDrop db dh req t y).2 = db := by
  rcases submitDrop_cases db dh req t y with ⟨_, h2⟩ | hok
  · exact h2
  · rw [hok] at h; cases h

/-- A successful call leaves exactly one new Drop row, the streak upsert,
and an unchanged config. -/
theorem submitDrop_snd_of_ok (db : DB) (dh : String) (req : DropRequest)
    (t y : Int) (n : Nat)
    (h : (submitDrop db dh req t y).1 = Except.ok n) :
    (submitDrop db dh req t y).2 =
      { db with drops := db.drops ++ [mkDrop db dh req t],
                streaks := streakUpsert db.streaks dh t y } := by
  rcases submitDrop_cases db dh req t y with ⟨⟨e, he⟩, _⟩ | hok
  · rw [he] at h; cases h
  · rw [hok]

/-- The handler never writes the config table. -/
theorem submitDrop_config (db : DB) (dh : String) (req : DropRequest)
    (t y : Int) : (submitDrop db dh req t y).2.config = db.config := by
  rcases submitDrop_cases db dh req t y with ⟨_, h2⟩ | hok
  · rw [h2]
  · rw [hok]

/-- Counting a device's drops across an appended row. -/
theorem countDeviceToday_append (drops : List Drop) (d : Drop) (dh : String)
    (t : Int) :
    countDeviceToday (drops ++ [d]) dh t =
      countDeviceToday drops dh t +
        (if d.deviceHash == dh && d.day == t then 1 else 0) := by
  unfold countDeviceToday
  rw [List.filter_append]
  by_cases h : (d.deviceHash == dh && d.day == t) = true
  · simp [h]
  · simp [Bool.eq_false_iff.mpr h]

/-- A successful call increases the device's today-count by exactly one. -/
theorem submitDrop_count_of_ok (db : DB) (dh : String) (req : DropRequest)
    (t y : Int) (n : Nat)
    (h : (submitDrop db dh req t y).1 = Except.ok n) :
    countDeviceToday (submitDrop db dh req t y).2.drops dh t =
      countDeviceToday db.drops dh t + 1 := by
  rw [submitDrop_snd_of_ok db dh req t y n h]
  show countDeviceToday (db.drops ++ [mkDrop db dh req t]) dh t = _
  rw [countDeviceToday_append]
  simp [mkDrop]

/-- Reading `capReached` for a parsed cap, as Nat comparison. -/
theorem capReached_some (c : Nat) (N : Nat) :
    capReached c (some (N : Int)) = decide (N ≤ c) := by
  unfold capReached
  by_cases h : N ≤ c
  · simp [h, Int.ofNat_le.mpr h]
  · have : ¬ ((c : Int) ≥ (N : Int)) := fun hc => h (Int.ofNat_le.mp hc)
    simp [h, this]

/-! ## Lemmas about the streak table -/

/-- The row found by `findStreak` carries the searched key. -/
theorem findStreak_key (ss : List Streak) (h : String) (s : Streak)
    (hf : findStreak ss h = some s) : s.deviceHash = h := by
  have := List.find?_some hf
  exact eq_of_beq this

/-- Updating the found row is visible to a subsequent lookup: `setStreak`
with a row carrying the same key replaces exactly the found row. -/
theorem findStreak_setStreak (ss : List Streak) (h : String) (s s' : Streak)
    (hf : findStreak ss h = some s) (hd : s'.deviceHash = s.deviceHash) :
    findStreak (setStreak ss s') h = some s' := by
  have hsh : s.deviceHash = h := findStreak_key ss h s hf
  induction ss with
  | nil => exact absurd hf (by simp [findStreak])
  | cons t ts ih =>
    by_cases hth : (t.deviceHash == h) = true
    · have hst : t = s := by
        have h1 : findStreak (t :: ts) h = some t :=
          List.find?_cons_of_pos ts hth
        exact Option.some_inj.mp (h1.symm.trans hf)
      have hrepl : (t.deviceHash == s'.deviceHash) = true :=
        beq_iff_eq.mpr (by rw [hd, hst])
      have hs'h : (s'.deviceHash == h) = true :=
        beq_iff_eq.mpr (by rw [hd, hsh])
      show List.find? (fun r => r.deviceHash == h)
        (List.map (fun r => if r.deviceHash == s'.deviceHash then s' else r)
          (t :: ts)) = some s'
      rw [List.map_cons, if_pos hrepl]
      exact List.find?_cons_of_pos _ hs'h
    · have htf : findStreak ts h = some s := by
        have h1 : findStreak (t :: ts) h = findStreak ts h :=
          List.find?_cons_of_neg ts hth
        exact h1.symm.trans hf
      have hreplf : ¬ ((t.deviceHash == s'.deviceHash) = true) := by
        intro hc
        apply hth
        have h1 : t.deviceHash = s'.deviceHash := beq_iff_eq.mp hc
        have h2 : s'.deviceHash = h := by rw [hd, hsh]
        exact beq_iff_eq.mpr (h1.trans h2)
      show List.find? (fun r => r.deviceHash == h)
        (List.map (fun r => if r.deviceHash == s'.deviceHash then s' else r)
          (t :: ts)) = some s'
      rw [List.map_cons, if_neg hreplf]
      rw [List.find?_cons_of_neg (p := fun (r : Streak) => r.deviceHash == h) _ hth]
      exact ih htf

/-- A fresh insert is visible to a subsequent lookup when no row with the
key existed. -/
theorem findStreak_append (ss : List Streak) (h : String) (s' : Streak)
    (hf : findStreak ss h = none) (hd : s'.deviceHash = h) :
    findStreak (ss ++ [s']) h = some s' := by
  unfold findStreak at hf ⊢
  rw [List.find?_append, hf]
  have hb : (s'.deviceHash == h) = true := beq_iff_eq.mpr hd
  rw [List.find?_cons_of_pos (p := fun (s : Streak) => s.deviceHash == h) _ hb]
  rfl

/-- The result of the streak upsert at the written key. -/
theorem findStreak_streakUpsert (ss : List Streak) (h : String)
    (t y : Int) :
    findStreak (streakUpsert ss h t y) h =
      some (match findStreak ss h with
        | some s => streakTransition s t y
        | none => { deviceHash := h, current := 1, longest := 1,
                    lastDropDate := some t }) := by
  unfold streakUpsert
  cases hf : findStreak ss h with
  | some s =>
    exact findStreak_setStreak ss h s _ hf rfl
  | none =>
    exact findStreak_append ss h _ hf rfl

/-! ## Claim theorems -/

/-- C1: for every successful submitDrop call the Streak Transition Rule is
applied exactly as specified: no existing row gives a fresh
`(currentStreak, longestStreak, lastDropDate) = (1, 1, today)` row;
an existing row gets `currentStreak + 1` when `lastDropDate = yesterday`,
an unchanged `currentStreak` when `lastDropDate = today`, and `1` for any
other `lastDropDate` (including null); in every update case
`longestStreak = max(longestStreak, newCurrentStreak)` and
`lastDropDate = today`. -/
theorem streak_transition_rule_on_success (db : DB) (dh : String)
    (req : DropRequest) (today yesterday : Int) (n : Nat)
    (hok : (submitDrop db dh req today yesterday).1 = Except.ok n) :
    (findStreak db.streaks dh = none →
      findStreak (submitDrop db dh req today yesterday).2.streaks dh =
        some { deviceHash := dh, current := 1, longest := 1,
               lastDropDate := some today }) ∧
    (∀ s, findStreak db.streaks dh = some s →
      ∃ s', findStreak (submitDrop db dh req today yesterday).2.streaks dh =
          some s' ∧
        s'.current = (if s.lastDropDate = some yesterday then s.current + 1
          else if s.lastDropDate = some today then s.current else 1) ∧
        s'.longest = max s.longest s'.current ∧
        s'.lastDropDate = some today) := by
  rw [submitDrop_snd_of_ok db dh req today yesterday n hok]
  constructor
  · intro hnone
    have := findStreak_streakUpsert db.streaks dh today yesterday
    rw [hnone] at this
    exact this
  · intro s hs
    have := findStreak_streakUpsert db.streaks dh today yesterday
    rw [hs] at this
    refine ⟨streakTransition s today yesterday, this, ?_, ?_, ?_⟩
    · rfl
    · show max _ s.longest = max s.longest _
      exact max_comm _ _
    · rfl

/-- C1 witness: first drop of a fresh device creates the `(1, 1, today)`
streak row. -/
theorem streak_transition_rule_on_success_witness :
    (submitDrop initialDB "abc" ⟨some "type", some 50⟩ 0 (-1)).1 =
      Except.ok 1 ∧
    findStreak
        (submitDrop initialDB "abc" ⟨some "type", some 50⟩ 0 (-1)).2.streaks
        "abc" =
      some { deviceHash := "abc", current := 1, longest := 1,
             lastDropDate := some 0 } :=
  ⟨rfl,
   (streak_transition_rule_on_success initialDB "abc" ⟨some "type", some 50⟩
      0 (-1) 1 rfl).1 (by decide)⟩

/-- C2: the admission checks run in the order daily cap, then mode
validity, then mode enablement, failing with the matching error; every
failure path performs zero mutations, and every successful call performs
exactly one Drop insertion, exactly one Streak upsert, and no config
change. -/
theorem admission_order_and_mutations (db : DB) (dh : String)
    (req : DropRequest) (t y : Int) :
    (capReached (countDeviceToday db.drops dh t)
        (parseIntOpt (configGetD db.config "drops_per_day" "1")) = true →
      submitDrop db dh req t y =
        (Except.error DropError.AlreadyDroppedToday, db)) ∧
    (capReached (countDeviceToday db.drops dh t)
        (parseIntOpt (configGetD db.config "drops_per_day" "1")) = false →
      validModes.contains (req.mode.getD "type") = false →
      submitDrop db dh req t y = (Except.error DropError.InvalidMode, db)) ∧
    (capReached (countDeviceToday db.drops dh t)
        (parseIntOpt (configGetD db.config "drops_per_day" "1")) = false →
      validModes.contains (req.mode.getD "type") = true →
      configLookup db.config ((req.mode.getD "type") ++ "_enabled") =
        some "false" →
      submitDrop db dh req t y = (Except.error DropError.ModeDisabled, db)) ∧
    (∀ e, (submitDrop db dh req t y).1 = Except.error e →
      (submitDrop db dh req t y).2 = db) ∧
    (∀ n, (submitDrop db dh req t y).1 = Except.ok n →
      (submitDrop db dh req t y).2.drops = db.drops ++ [mkDrop db dh req t] ∧
      (submitDrop db dh req t y).2.streaks = streakUpsert db.streaks dh t y ∧
      (submitDrop db dh req t y).2.config = db.config) := by
  refine ⟨submitDrop_of_cap db dh req t y,
    submitDrop_of_invalid db dh req t y,
    submitDrop_of_disabled db dh req t y,
    submitDrop_snd_of_error db dh req t y, ?_⟩
  intro n hok
  rw [submitDrop_snd_of_ok db dh req t y n hok]
  exact ⟨rfl, rfl, rfl⟩

/-- C2 witness: an invalid mode under an unreached cap is rejected with
`InvalidMode` and leaves the database untouched. -/
theorem admission_order_and_mutations_witness :
    submitDrop initialDB "abc" ⟨some "bad", some 5⟩ 0 (-1) =
      (Except.error DropError.InvalidMode, initialDB) :=
  (admission_order_and_mutations initialDB "abc" ⟨some "bad", some 5⟩
    0 (-1)).2.1 (by decide) (by decide)

/-- C7: the charCount stored by a successful submitDrop equals
`min(input charCount, max_chars parsed from config)` and is therefore
always at most `max_chars`, regardless of the input magnitude. -/
theorem charcount_clamped_to_max (db : DB) (dh : String) (req : DropRequest)
    (t y : Int) (M : Int) (n : Nat)
    (hM : parseIntOpt (configGetD db.config "max_chars" "200") = some M)
    (hok : (submitDrop db dh req t y).1 = Except.ok n) :
    (submitDrop db dh req t y).2.drops =
      db.drops ++ [{ deviceHash := dh, mode := req.mode.getD "type",
                     charCount := some (min (req.charCount.getD 0) M),
                     day := t }] ∧
    min (req.charCount.getD 0) M ≤ M := by
  rw [submitDrop_snd_of_ok db dh req t y n hok]
  constructor
  · show db.drops ++ [mkDrop db dh req t] = _
    rw [mkDrop]
    rw [clampChar, hM]
    rfl
  · exact min_le_right _ _

/-- C7 witness: with `max_chars = 200`, submitting `charCount = 500`
stores a Drop with `charCount = 200`. -/
theorem charcount_clamped_to_max_witness :
    (submitDrop initialDB "abc" ⟨some "type", some 500⟩ 0 (-1)).2.drops =
      [{ deviceHash := "abc", mode := "type", charCount := some 200,
         day := 0 }] ∧
    min (500 : Int) 200 ≤ 200 :=
  charcount_clamped_to_max initialDB "abc" ⟨some "type", some 500⟩ 0 (-1)
    200 1 (by decide) rfl

/-- C8 counterexample: the admission path stores a negative charCount
as-is: submitting `charCount = -5` under the default config succeeds and
creates a Drop row with `charCount = -5 < 0`, so not every Drop row
created through the admission path has a non-negative charCount. -/
theorem negative_charcount_stored_counterexample :
    (submitDrop initialDB "abc" ⟨some "type", some (-5)⟩ 0 (-1)).1 =
      Except.ok 1 ∧
    (submitDrop initialDB "abc" ⟨some "type", some (-5)⟩ 0 (-1)).2.drops =
      [{ deviceHash := "abc", mode := "type", charCount := some (-5),
         day := 0 }] ∧
    ¬ (0 : Int) ≤ -5 :=
  ⟨rfl, rfl, by decide⟩

/-- C8 amended: the stored charCount is `min(input, parsed max_chars)`
with no floor at zero; it is non-negative whenever both the input
charCount and the parsed `max_chars` are non-negative, while a negative
input is stored unchanged. -/
theorem charcount_nonneg_for_nonneg_input (db : DB) (dh : String)
    (req : DropRequest) (t y : Int) (M : Int) (n : Nat)
    (hc : 0 ≤ req.charCount.getD 0)
    (hM : parseIntOpt (configGetD db.config "max_chars" "200") = some M)
    (hM0 : 0 ≤ M)
    (hok : (submitDrop db dh req t y).1 = Except.ok n) :
    (submitDrop db dh req t y).2.drops =
      db.drops ++ [{ deviceHash := dh, mode := req.mode.getD "type",
                     charCount := some (min (req.charCount.getD 0) M),
                     day := t }] ∧
    0 ≤ min (req.charCount.getD 0) M := by
  constructor
  · rw [submitDrop_snd_of_ok db dh req t y n hok]
    show db.drops ++ [mkDrop db dh req t] = _
    rw [mkDrop, clampChar, hM]
    rfl
  · exact le_min hc hM0

/-- C8 amended witness: a non-negative input stays non-negative. -/
theorem charcount_nonneg_for_nonneg_input_witness :
    (submitDrop initialDB "abc" ⟨some "type", some 50⟩ 0 (-1)).2.drops =
      [{ deviceHash := "abc", mode := "type", charCount := some 50,
         day := 0 }] ∧
    (0 : Int) ≤ min 50 200 :=
  charcount_nonneg_for_nonneg_input initialDB "abc" ⟨some "type", some 50⟩
    0 (-1) 200 1 (by decide) (by decide) (by decide) rfl

/-- C9: when the stored `drops_per_day` does not parse (`parseInt` yields
`NaN`), the daily-cap check can never fail: no submitDrop call, from any
database state and any device, returns `AlreadyDroppedToday`. -/
theorem nan_cap_never_rejects (db : DB) (dh : String) (req : DropRequest)
    (t y : Int)
    (hnan : parseIntOpt (configGetD db.config "drops_per_day" "1") = none) :
    (submitDrop db dh req t y).1 ≠
      Except.error DropError.AlreadyDroppedToday := by
  have hcap : capReached (countDeviceToday db.drops dh t)
      (parseIntOpt (configGetD db.config "drops_per_day" "1")) = false := by
    rw [hnan]; rfl
  by_cases hm : validModes.contains (req.mode.getD "type") = true
  · by_cases hd : configLookup db.config
        ((req.mode.getD "type") ++ "_enabled") = some "false"
    · rw [submitDrop_of_disabled db dh req t y hcap hm hd]
      intro hc; cases hc
    · rw [submitDrop_of_pass db dh req t y hcap hm hd]
      intro hc; cases hc
  · have hm' : validModes.contains (req.mode.getD "type") = false :=
      Bool.eq_false_iff.mpr hm
    rw [submitDrop_of_invalid db dh req t y hcap hm']
    intro hc; cases hc

/-- C9 witness: with `drops_per_day = "abc"` and five drops already
recorded today, the request still is not rejected by the cap. -/
theorem nan_cap_never_rejects_witness :
    (submitDrop
        { drops := List.replicate 5
            { deviceHash := "abc", mode := "type", charCount := some 1,
              day := 0 },
          streaks := [],
          config := configUpsertOne defaultConfig "drops_per_day" "abc" }
        "abc" ⟨some "type", some 5⟩ 0 (-1)).1 ≠
      Except.error DropError.AlreadyDroppedToday :=
  nan_cap_never_rejects
    { drops := List.replicate 5
        { deviceHash := "abc", mode := "type", charCount := some 1,
          day := 0 },
      streaks := [],
      config := configUpsertOne defaultConfig "drops_per_day" "abc" }
    "abc" ⟨some "type", some 5⟩ 0 (-1) (by decide)

/-- A configuration whose `max_chars` is a negative decimal string; all
other admission-relevant keys are left at their defaults. -/
def negMaxCharsDB : DB :=
  { drops := [], streaks := [],
    config := configUpsertOne defaultConfig "max_chars" "-7" }

/-- C10 counterexample: a request omitting both body fields is defaulted
to `mode = "type"`, `charCount = 0` and admitted while the daily cap and
`type_enabled` permit, yet the stored Drop's size is `min(0, max_chars)`,
which is `-7`, not `0`, when `max_chars` parses negative. -/
theorem empty_body_size_counterexample :
    capReached (countDeviceToday negMaxCharsDB.drops "abc" 0)
      (parseIntOpt (configGetD negMaxCharsDB.config "drops_per_day" "1")) =
        false ∧
    configLookup negMaxCharsDB.config "type_enabled" ≠ some "false" ∧
    (submitDrop negMaxCharsDB "abc" ⟨none, none⟩ 0 (-1)).1 = Except.ok 1 ∧
    (submitDrop negMaxCharsDB "abc" ⟨none, none⟩ 0 (-1)).2.drops =
      [{ deviceHash := "abc", mode := "type", charCount := some (-7),
         day := 0 }] ∧
    some (-7 : Int) ≠ some (0 : Int) :=
  ⟨by decide, by decide, rfl, rfl, by decide⟩

/-- C10 amended: an omitted body behaves exactly like an explicit
`mode = "type"`, `charCount = 0` body; whenever the daily cap and the
`type_enabled` flag permit and `max_chars` parses to a non-negative
integer (as the default `200` does), the call is admitted as a type-mode
drop whose stored size is `0`. -/
theorem empty_body_defaults (db : DB) (dh : String) (t y : Int) (M : Int)
    (hM : parseIntOpt (configGetD db.config "max_chars" "200") = some M)
    (hM0 : 0 ≤ M)
    (hcap : capReached (countDeviceToday db.drops dh t)
      (parseIntOpt (configGetD db.config "drops_per_day" "1")) = false)
    (hen : configLookup db.config "type_enabled" ≠ some "false") :
    submitDrop db dh ⟨none, none⟩ t y =
      submitDrop db dh ⟨some "type", some 0⟩ t y ∧
    (submitDrop db dh ⟨none, none⟩ t y).1 =
      Except.ok (countAllToday
        (db.drops ++ [{ deviceHash := dh, mode := "type",
                        charCount := some 0, day := t }]) t) ∧
    (submitDrop db dh ⟨none, none⟩ t y).2.drops =
      db.drops ++ [{ deviceHash := dh, mode := "type", charCount := some 0,
                     day := t }] := by
  have hm : validModes.contains ((⟨none, none⟩ : DropRequest).mode.getD
      "type") = true := by decide
  have hdrop : mkDrop db dh ⟨none, none⟩ t =
      { deviceHash := dh, mode := "type", charCount := some 0, day := t } := by
    rw [mkDrop, clampChar, hM]
    have hmin : min (0 : Int) M = 0 := min_eq_left hM0
    show ({ deviceHash := dh, mode := "type",
            charCount := some (min 0 M), day := t } : Drop) = _
    rw [hmin]
  have hpass := submitDrop_of_pass db dh ⟨none, none⟩ t y hcap hm hen
  refine ⟨rfl, ?_, ?_⟩
  · rw [hpass, hdrop]
  · rw [hpass, hdrop]

/-- C10 amended witness: an empty body under the default config is
admitted as a type-mode drop of size 0. -/
theorem empty_body_defaults_witness :
    submitDrop initialDB "abc" ⟨none, none⟩ 0 (-1) =
      submitDrop initialDB "abc" ⟨some "type", some 0⟩ 0 (-1) ∧
    (submitDrop initialDB "abc" ⟨none, none⟩ 0 (-1)).1 =
      Except.ok (countAllToday
        [{ deviceHash := "abc", mode := "type", charCount := some 0,
           day := 0 }] 0) ∧
    (submitDrop initialDB "abc" ⟨none, none⟩ 0 (-1)).2.drops =
      [{ deviceHash := "abc", mode := "type", charCount := some 0,
         day := 0 }] :=
  empty_body_defaults initialDB "abc" 0 (-1) 200 (by decide) (by decide)
    (by decide) (by decide)

/-- The database state used to exhibit the midnight race: a device whose
streak row says it last dropped on day 0 (the request's `today`). -/
def midnightDB : DB :=
  { drops := [],
    streaks := [{ deviceHash := "abc", current := 5, longest := 5,
                  lastDropDate := some 0 }],
    config := defaultConfig }

/-- C4 is violated: `today` comes from the clock read at the start of the
request but `yesterday` comes from a second `Date.now()` read inside the
streak block. With the first read in the last millisecond of day 0 and
the second read just after midnight, `yesterday` equals `today` instead
of the preceding day, and a drop whose streak row has
`lastDropDate = today` increments `currentStreak` (5 to 6) where the
Streak Transition Rule with a single captured now would leave it at 5. -/
theorem midnight_two_clock_reads :
    todayOf 86399999 = 0 ∧
    yesterdayOf 86400000 = 0 ∧
    yesterdayOf 86400000 ≠ todayOf 86399999 - 1 ∧
    (submitDrop midnightDB "abc" ⟨some "type", some 5⟩
        (todayOf 86399999) (yesterdayOf 86400000)).2.streaks =
      [{ deviceHash := "abc", current := 6, longest := 6,
         lastDropDate := some 0 }] ∧
    (streakTransition
        { deviceHash := "abc", current := 5, longest := 5,
          lastDropDate := some 0 } 0 (-1)).current = 5 :=
  ⟨rfl, rfl, by decide, rfl, rfl⟩

/-- The two-entry update map used to exhibit the non-atomic config write. -/
def c5updates : List (String × String) :=
  [("announcement", "hello"), ("max_chars", "300")]

/-- C5 is violated by the PostgreSQL variant: a bulk config upsert of two
pairs whose second write fails leaves the first pair applied and
observable by a subsequent read (`announcement` is updated, `max_chars`
is not), a state equal neither to the original config nor to the fully
applied one. The better-sqlite3 variant is atomic: a failing transaction
leaves the config unchanged, and a successful one applies every pair. -/
theorem config_put_pg_not_atomic :
    (configPutPg defaultConfig c5updates (some 1)).1 = false ∧
    (configPutPg defaultConfig c5updates (some 1)).2 ≠ defaultConfig ∧
    (configPutPg defaultConfig c5updates (some 1)).2 ≠
      (configPutPg defaultConfig c5updates none).2 ∧
    configLookup (configPutPg defaultConfig c5updates (some 1)).2
      "announcement" = some "hello" ∧
    configLookup (configPutPg defaultConfig c5updates (some 1)).2
      "max_chars" = some "200" ∧
    (∀ cfg updates, (configPutSqlite cfg updates true).2 = cfg) ∧
    (∀ cfg updates, (configPutSqlite cfg updates false).2 =
      (configPutPg cfg updates none).2) :=
  ⟨rfl, by decide, by decide, by decide, by decide,
   fun _ _ => rfl, fun _ _ => rfl⟩

/-! ## Sequential runs against one device -/

/-- Whether a drop response is the success response. -/
def isSuccess : Except DropError Nat → Bool
  | Except.ok _ => true
  | Except.error _ => false

/-- A sequence of sequential `POST /api/drop` calls from one device within
one calendar day: each call runs against the database the previous call
left behind. Returns the list of responses and the final database. -/
def runSeq (dh : String) (today yesterday : Int) :
    DB → List DropRequest → List (Except DropError Nat) × DB
  | db, [] => ([], db)
  | db, r :: rs =>
      ((submitDrop db dh r today yesterday).1 ::
        (runSeq dh today yesterday (submitDrop db dh r today yesterday).2 rs).1,
       (runSeq dh today yesterday (submitDrop db dh r today yesterday).2 rs).2)

/-- Success in a step means the cap was strictly below the parsed limit. -/
theorem submitDrop_ok_cap_lt (db : DB) (dh : String) (req : DropRequest)
    (t y : Int) (N : Nat) (n : Nat)
    (hp : parseIntOpt (configGetD db.config "drops_per_day" "1") =
      some (N : Int))
    (hok : (submitDrop db dh req t y).1 = Except.ok n) :
    countDeviceToday db.drops dh t < N := by
  by_contra hge
  have hNle : N ≤ countDeviceToday db.drops dh t := Nat.le_of_not_lt hge
  have hcap : capReached (countDeviceToday db.drops dh t)
      (parseIntOpt (configGetD db.config "drops_per_day" "1")) = true := by
    rw [hp, capReached_some]
    exact decide_eq_true hNle
  rw [submitDrop_of_cap db dh req t y hcap] at hok
  cases hok

/-- The cap, once reached, rejects with `AlreadyDroppedToday`. -/
theorem submitDrop_cap_rejects (db : DB) (dh : String) (req : DropRequest)
    (t y : Int) (N : Nat)
    (hp : parseIntOpt (configGetD db.config "drops_per_day" "1") =
      some (N : Int))
    (hge : N ≤ countDeviceToday db.drops dh t) :
    submitDrop db dh req t y =
      (Except.error DropError.AlreadyDroppedToday, db) := by
  apply submitDrop_of_cap
  rw [hp, capReached_some]
  exact decide_eq_true hge

/-- Invariant carried along a sequential run: the device's today-count
plus the number of successes never exceeds `max(initial count, N)`, and
any call made when the count has already reached `N` is rejected. -/
theorem runSeq_spec (dh : String) (t y : Int) (N : Nat)
    (reqs : List DropRequest) :
    ∀ (db : DB),
      parseIntOpt (configGetD db.config "drops_per_day" "1") =
        some (N : Int) →
      ((runSeq dh t y db reqs).1.countP isSuccess +
          countDeviceToday db.drops dh t ≤
        max (countDeviceToday db.drops dh t) N) ∧
      (∀ i (hi : i < (runSeq dh t y db reqs).1.length),
        N ≤ countDeviceToday db.drops dh t +
            ((runSeq dh t y db reqs).1.take i).countP isSuccess →
        (runSeq dh t y db reqs).1.get ⟨i, hi⟩ =
          Except.error DropError.AlreadyDroppedToday) := by
  induction reqs with
  | nil =>
    intro db _
    constructor
    · show List.countP isSuccess [] + _ ≤ _
      rw [List.countP_nil, Nat.zero_add]
      exact Nat.le_max_left _ _
    · intro i hi
      exact absurd hi (Nat.not_lt_zero i)
  | cons r rs ih =>
    intro db hp
    have hcfg : parseIntOpt
        (configGetD (submitDrop db dh r t y).2.config "drops_per_day" "1") =
        some (N : Int) := by
      rw [submitDrop_config]; exact hp
    have IH := ih (submitDrop db dh r t y).2 hcfg
    cases hres : (submitDrop db dh r t y).1 with
    | ok n =>
      have hcnt : countDeviceToday (submitDrop db dh r t y).2.drops dh t =
          countDeviceToday db.drops dh t + 1 :=
        submitDrop_count_of_ok db dh r t y n hres
      have hlt : countDeviceToday db.drops dh t < N :=
        submitDrop_ok_cap_lt db dh r t y N n hp hres
      rw [hcnt] at IH
      have hmax : max (countDeviceToday db.drops dh t + 1) N = N :=
        Nat.max_eq_right (Nat.succ_le_of_lt hlt)
      rw [hmax] at IH
      constructor
      · show List.countP isSuccess ((submitDrop db dh r t y).1 :: _) + _ ≤ _
        rw [hres, List.countP_cons]
        have hone : (if isSuccess (Except.ok n) then 1 else 0) = 1 := rfl
        rw [hone]
        have := IH.1
        calc List.countP isSuccess
              (runSeq dh t y (submitDrop db dh r t y).2 rs).1 + 1 +
              countDeviceToday db.drops dh t
            = List.countP isSuccess
                (runSeq dh t y (submitDrop db dh r t y).2 rs).1 +
              (countDeviceToday db.drops dh t + 1) := by omega
          _ ≤ N := this
          _ ≤ max (countDeviceToday db.drops dh t) N := Nat.le_max_right _ _
      · intro i hi hN
        match i, hi with
        | 0, hi =>
          exfalso
          have : ((runSeq dh t y db (r :: rs)).1.take 0).countP isSuccess =
              0 := rfl
          rw [this] at hN
          omega
        | Nat.succ j, hi =>
          show ((submitDrop db dh r t y).1 ::
            (runSeq dh t y (submitDrop db dh r t y).2 rs).1).get _ = _
          have hj : j < (runSeq dh t y (submitDrop db dh r t y).2 rs).1.length := by
            have : Nat.succ j <
                ((submitDrop db dh r t y).1 ::
                  (runSeq dh t y (submitDrop db dh r t y).2 rs).1).length := hi
            simpa using this
          have htake : ((runSeq dh t y db (r :: rs)).1.take (Nat.succ j)).countP
              isSuccess =
              ((runSeq dh t y (submitDrop db dh r t y).2 rs).1.take j).countP
                isSuccess + 1 := by
            show (((submitDrop db dh r t y).1 ::
              (runSeq dh t y (submitDrop db dh r t y).2 rs).1).take
                (Nat.succ j)).countP isSuccess = _
            rw [List.take_succ_cons, List.countP_cons, hres]
            rfl
          rw [htake] at hN
          have := IH.2 j hj (by omega)
          simpa using this
    | error e =>
      have hsame : (submitDrop db dh r t y).2 = db :=
        submitDrop_snd_of_error db dh r t y e hres
      have hcnt : countDeviceToday (submitDrop db dh r t y).2.drops dh t =
          countDeviceToday db.drops dh t := by rw [hsame]
      rw [hcnt] at IH
      constructor
      · show List.countP isSuccess ((submitDrop db dh r t y).1 :: _) + _ ≤ _
        rw [hres, List.countP_cons]
        have hzero : (if isSuccess (Except.error e) then 1 else 0) = 0 := rfl
        rw [hzero]
        have := IH.1
        omega
      · intro i hi hN
        match i, hi with
        | 0, hi =>
          have hge : N ≤ countDeviceToday db.drops dh t := by
            have : ((runSeq dh t y db (r :: rs)).1.take 0).countP isSuccess =
                0 := rfl
            rw [this] at hN
            omega
          have hfst : (submitDrop db dh r t y).1 =
              Except.error DropError.AlreadyDroppedToday := by
            rw [submitDrop_cap_rejects db dh r t y N hp hge]
          show ((submitDrop db dh r t y).1 ::
            (runSeq dh t y (submitDrop db dh r t y).2 rs).1).get ⟨0, hi⟩ = _
          exact hfst
        | Nat.succ j, hi =>
          show ((submitDrop db dh r t y).1 ::
            (runSeq dh t y (submitDrop db dh r t y).2 rs).1).get _ = _
          have hj : j < (runSeq dh t y (submitDrop db dh r t y).2 rs).1.length := by
            have : Nat.succ j <
                ((submitDrop db dh r t y).1 ::
                  (runSeq dh t y (submitDrop db dh r t y).2 rs).1).length := hi
            simpa using this
          have htake : ((runSeq dh t y db (r :: rs)).1.take (Nat.succ j)).countP
              isSuccess =
              ((runSeq dh t y (submitDrop db dh r t y).2 rs).1.take j).countP
                isSuccess := by
            show (((submitDrop db dh r t y).1 ::
              (runSeq dh t y (submitDrop db dh r t y).2 rs).1).take
                (Nat.succ j)).countP isSuccess = _
            rw [List.take_succ_cons, List.countP_cons, hres]
            rfl
          rw [htake] at hN
          have := IH.2 j hj (by omega)
          simpa using this

/-- C3: with `drops_per_day` parsing to `N`, a sequence of sequential
submitDrop calls from one device within one day (starting from no drops
that day) contains at most `N` successes; every call made after the
`N`-th success fails with `AlreadyDroppedToday`; and the admin drop
insertion endpoint inserts unconditionally, exempt from the cap. -/
theorem daily_cap_bounds_sequential (db : DB) (dh : String) (t y : Int)
    (N : Nat) (reqs : List DropRequest)
    (hp : parseIntOpt (configGetD db.config "drops_per_day" "1") =
      some (N : Int))
    (h0 : countDeviceToday db.drops dh t = 0) :
    (runSeq dh t y db reqs).1.countP isSuccess ≤ N ∧
    (∀ i (hi : i < (runSeq dh t y db reqs).1.length),
      N ≤ ((runSeq dh t y db reqs).1.take i).countP isSuccess →
      (runSeq dh t y db reqs).1.get ⟨i, hi⟩ =
        Except.error DropError.AlreadyDroppedToday) ∧
    (∀ (db2 : DB) (req : DropRequest) (t2 : Int),
      (adminDrop db2 req t2).drops =
        db2.drops ++
          [{ deviceHash := "admin", mode := req.mode.getD "type",
             charCount := some (req.charCount.getD 0), day := t2 }]) := by
  have hspec := runSeq_spec dh t y N reqs db hp
  rw [h0] at hspec
  refine ⟨?_, ?_, fun _ _ _ => rfl⟩
  · have := hspec.1
    have hmax : max 0 N = N := Nat.max_eq_right (Nat.zero_le N)
    omega
  · intro i hi hN
    exact hspec.2 i hi (by omega)

/-- C3 witness: with `drops_per_day = 2`, four identical valid requests
from one device yield at most two successes, and the calls after the
second success are rejected. -/
theorem daily_cap_bounds_sequential_witness :
    (runSeq "abc" 0 (-1)
        { drops := [], streaks := [],
          config := configUpsertOne defaultConfig "drops_per_day" "2" }
        (List.replicate 4 ⟨some "type", some 5⟩)).1.countP isSuccess ≤ 2 ∧
    (∀ i (hi : i < (runSeq "abc" 0 (-1)
        { drops := [], streaks := [],
          config := configUpsertOne defaultConfig "drops_per_day" "2" }
        (List.replicate 4 ⟨some "type", some 5⟩)).1.length),
      2 ≤ ((runSeq "abc" 0 (-1)
        { drops := [], streaks := [],
          config := configUpsertOne defaultConfig "drops_per_day" "2" }
        (List.replicate 4 ⟨some "type", some 5⟩)).1.take i).countP isSuccess →
      (runSeq "abc" 0 (-1)
        { drops := [], streaks := [],
          config := configUpsertOne defaultConfig "drops_per_day" "2" }
        (List.replicate 4 ⟨some "type", some 5⟩)).1.get ⟨i, hi⟩ =
        Except.error DropError.AlreadyDroppedToday) ∧
    (∀ (db2 : DB) (req : DropRequest) (t2 : Int),
      (adminDrop db2 req t2).drops =
        db2.drops ++
          [{ deviceHash := "admin", mode := req.mode.getD "type",
             charCount := some (req.charCount.getD 0), day := t2 }]) :=
  daily_cap_bounds_sequential
    { drops := [], streaks := [],
      config := configUpsertOne defaultConfig "drops_per_day" "2" }
    "abc" 0 (-1) 2 (List.replicate 4 ⟨some "type", some 5⟩)
    (by decide) (by decide)

/-! ## The state machine of all mutating operations -/

/-- The mutating operations of the API surface. -/
inductive Op where
  | drop (dh : String) (req : DropRequest) (today yesterday : Int)
  | adminInsert (req : DropRequest) (today : Int)
  | adminResetStreaks
  | adminResetCounter (today : Int)
  | adminConfigPut (updates : List (String × String)) (failAfter : Option Nat)

/-- Effect of one operation on the database. -/
def applyOp (db : DB) : Op → DB
  | Op.drop dh req t y => (submitDrop db dh req t y).2
  | Op.adminInsert req t => adminDrop db req t
  | Op.adminResetStreaks => resetStreaks db
  | Op.adminResetCounter t => resetCounter db t
  | Op.adminConfigPut updates failAfter =>
      { db with config := (configPutPg db.config updates failAfter).2 }

/-- States reachable from the freshly initialised database. -/
inductive Reachable : DB → Prop where
  | init : Reachable initialDB
  | step (db : DB) (op : Op) : Reachable db → Reachable (applyOp db op)

/-- Well-formedness of the streak table: `device_hash` is a primary key
(no duplicate keys) and every row satisfies
`0 ≤ currentStreak ≤ longestStreak`. -/
def StreakWF (db : DB) : Prop :=
  (db.streaks.map Streak.deviceHash).Nodup ∧
  ∀ s ∈ db.streaks, 0 ≤ s.current ∧ s.current ≤ s.longest

/-- Distinct keys identify rows. -/
theorem streak_key_inj (ss : List Streak)
    (hnd : (ss.map Streak.deviceHash).Nodup) :
    ∀ s ∈ ss, ∀ u ∈ ss, s.deviceHash = u.deviceHash → s = u :=
  fun _ hs _ hu h => List.inj_on_of_nodup_map hnd hs hu h

/-- `setStreak` with a row of an existing key permutes no keys. -/
theorem setStreak_keys (ss : List Streak) (s' : Streak) :
    (setStreak ss s').map Streak.deviceHash = ss.map Streak.deviceHash := by
  unfold setStreak
  rw [List.map_map]
  apply List.map_congr_left
  intro t _
  by_cases h : (t.deviceHash == s'.deviceHash) = true
  · show (if t.deviceHash == s'.deviceHash then s' else t).deviceHash =
      t.deviceHash
    rw [if_pos h]
    exact (beq_iff_eq.mp h).symm
  · show (if t.deviceHash == s'.deviceHash then s' else t).deviceHash =
      t.deviceHash
    rw [if_neg h]

/-- The streak transition keeps `current` non-negative, keeps
`current ≤ longest`, and never decreases `longest`. -/
theorem streakTransition_bounds (s : Streak) (t y : Int)
    (h0 : 0 ≤ s.current) :
    0 ≤ (streakTransition s t y).current ∧
    (streakTransition s t y).current ≤ (streakTransition s t y).longest ∧
    s.longest ≤ (streakTransition s t y).longest := by
  refine ⟨?_, le_max_left _ _, le_max_right _ _⟩
  show 0 ≤ (if s.lastDropDate = some y then s.current + 1
    else if s.lastDropDate = some t then s.current else 1)
  split_ifs <;> omega

/-- The streak upsert preserves well-formedness of the streak table. -/
theorem streakUpsert_wf (ss : List Streak) (dh : String) (t y : Int)
    (hnd : (ss.map Streak.deviceHash).Nodup)
    (hb : ∀ s ∈ ss, 0 ≤ s.current ∧ s.current ≤ s.longest) :
    ((streakUpsert ss dh t y).map Streak.deviceHash).Nodup ∧
    ∀ s ∈ streakUpsert ss dh t y, 0 ≤ s.current ∧ s.current ≤ s.longest := by
  unfold streakUpsert
  cases hf : findStreak ss dh with
  | some s0 =>
    constructor
    · rw [setStreak_keys]
      exact hnd
    · intro u hu
      obtain ⟨v, hv, hvu⟩ := List.mem_map.mp hu
      by_cases hc : (v.deviceHash ==
          (streakTransition s0 t y).deviceHash) = true
      · rw [if_pos hc] at hvu
        have hs0 : s0 ∈ ss := List.mem_of_find?_eq_some hf
        have hbs0 := hb s0 hs0
        have hbt := streakTransition_bounds s0 t y hbs0.1
        rw [← hvu]
        exact ⟨hbt.1, hbt.2.1⟩
      · rw [if_neg hc] at hvu
        rw [← hvu]
        exact hb v hv
  | none =>
    constructor
    · rw [List.map_append]
      rw [List.nodup_append]
      refine ⟨hnd, List.nodup_singleton _, ?_⟩
      intro k hk hk1
      have hkd : k = dh := by
        have : k ∈ [dh] := hk1
        simpa using this
      obtain ⟨v, hv, hvk⟩ := List.mem_map.mp hk
      have := List.find?_eq_none.mp hf v hv
      apply this
      show (v.deviceHash == dh) = true
      exact beq_iff_eq.mpr (hvk.trans hkd)
    · intro u hu
      rcases List.mem_append.mp hu with hle | hri
      · exact hb u hle
      · have hfr : u = ⟨dh, 1, 1, some t⟩ := by simpa using hri
        rw [hfr]
        exact ⟨by norm_num, by norm_num⟩

/-- The streak upsert never decreases the `longest` column of any row. -/
theorem streakUpsert_longest_mono (ss : List Streak) (dh : String)
    (t y : Int) (hnd : (ss.map Streak.deviceHash).Nodup) :
    ∀ s ∈ ss, ∀ s2 ∈ streakUpsert ss dh t y,
      s2.deviceHash = s.deviceHash → s.longest ≤ s2.longest := by
  intro s hs s2 hs2 hkey
  unfold streakUpsert at hs2
  cases hf : findStreak ss dh with
  | some s0 =>
    rw [hf] at hs2
    obtain ⟨v, hv, hvu⟩ := List.mem_map.mp hs2
    by_cases hc : (v.deviceHash ==
        (streakTransition s0 t y).deviceHash) = true
    · rw [if_pos hc] at hvu
      have hs0 : s0 ∈ ss := List.mem_of_find?_eq_some hf
      have hkey2 : s.deviceHash = s0.deviceHash := by
        rw [← hkey, ← hvu]
        exact rfl
      have : s = s0 := streak_key_inj ss hnd s hs s0 hs0 hkey2
      rw [this, ← hvu]
      show s0.longest ≤ max _ s0.longest
      exact le_max_right _ _
    · rw [if_neg hc] at hvu
      have : s = v := streak_key_inj ss hnd s hs v hv (by rw [← hkey, ← hvu])
      rw [this, ← hvu]
  | none =>
    rw [hf] at hs2
    rcases List.mem_append.mp hs2 with hle | hri
    · have : s = s2 := streak_key_inj ss hnd s hs s2 hle hkey.symm
      rw [this]
    · have hfr : s2 = ⟨dh, 1, 1, some t⟩ := by simpa using hri
      exfalso
      have hnone := List.find?_eq_none.mp hf s hs
      apply hnone
      show (s.deviceHash == dh) = true
      apply beq_iff_eq.mpr
      rw [← hkey, hfr]

/-- Every operation preserves streak-table well-formedness. -/
theorem applyOp_wf (db : DB) (op : Op) (h : StreakWF db) :
    StreakWF (applyOp db op) := by
  cases op with
  | drop dh req t y =>
    show StreakWF (submitDrop db dh req t y).2
    rcases submitDrop_cases db dh req t y with ⟨_, h2⟩ | hok
    · rw [h2]; exact h
    · rw [hok]
      exact ⟨(streakUpsert_wf db.streaks dh t y h.1 h.2).1,
             (streakUpsert_wf db.streaks dh t y h.1 h.2).2⟩
  | adminInsert req t => exact h
  | adminResetStreaks =>
    constructor
    · show ((db.streaks.map fun s => { s with current := 0 }).map
        Streak.deviceHash).Nodup
      rw [List.map_map]
      exact h.1
    · intro u hu
      obtain ⟨v, hv, hvu⟩ := List.mem_map.mp hu
      have hbv := h.2 v hv
      rw [← hvu]
      exact ⟨le_refl 0, by
        show (0 : Int) ≤ v.longest
        omega⟩
  | adminResetCounter t => exact h
  | adminConfigPut updates failAfter => exact h

/-- Every reachable state has a well-formed streak table. -/
theorem reachable_wf (db : DB) (h : Reachable db) : StreakWF db := by
  induction h with
  | init =>
    constructor
    · show (List.map Streak.deviceHash []).Nodup
      simp
    · intro s hs
      exact absurd hs (List.not_mem_nil s)
  | step db2 op _ ih => exact applyOp_wf db2 op ih

/-- No operation decreases any row's `longest` column. -/
theorem applyOp_longest_mono (db : DB) (op : Op) (h : StreakWF db) :
    ∀ s ∈ db.streaks, ∀ s2 ∈ (applyOp db op).streaks,
      s2.deviceHash = s.deviceHash → s.longest ≤ s2.longest := by
  cases op with
  | drop dh req t y =>
    show ∀ s ∈ db.streaks, ∀ s2 ∈ (submitDrop db dh req t y).2.streaks, _
    rcases submitDrop_cases db dh req t y with ⟨_, h2⟩ | hok
    · rw [h2]
      intro s hs s2 hs2 hkey
      have : s = s2 := streak_key_inj db.streaks h.1 s hs s2 hs2 hkey.symm
      rw [this]
    · rw [hok]
      exact streakUpsert_longest_mono db.streaks dh t y h.1
  | adminInsert req t =>
    intro s hs s2 hs2 hkey
    have : s = s2 := streak_key_inj db.streaks h.1 s hs s2 hs2 hkey.symm
    rw [this]
  | adminResetStreaks =>
    intro s hs s2 hs2 hkey
    obtain ⟨v, hv, hvu⟩ := List.mem_map.mp hs2
    have hkv : v.deviceHash = s.deviceHash := by
      rw [← hkey, ← hvu]
    have : v = s := streak_key_inj db.streaks h.1 v hv s hs hkv
    rw [← this, ← hvu]
  | adminResetCounter t =>
    intro s hs s2 hs2 hkey
    have : s = s2 := streak_key_inj db.streaks h.1 s hs s2 hs2 hkey.symm
    rw [this]
  | adminConfigPut updates failAfter =>
    intro s hs s2 hs2 hkey
    have : s = s2 := streak_key_inj db.streaks h.1 s hs s2 hs2 hkey.symm
    rw [this]

/-- C6: from every reachable state, every operation (submitDrop, admin
drop insertion, reset-streaks, reset-counter, config upsert) leaves every
Streak row with `longestStreak ≥ currentStreak` (and a non-negative
`currentStreak`), and no operation decreases any row's `longestStreak`. -/
theorem streak_longest_invariant (db : DB) (hdb : Reachable db) (op : Op) :
    (∀ s ∈ (applyOp db op).streaks,
      0 ≤ s.current ∧ s.current ≤ s.longest) ∧
    (∀ s ∈ db.streaks, ∀ s2 ∈ (applyOp db op).streaks,
      s2.deviceHash = s.deviceHash → s.longest ≤ s2.longest) := by
  have hwf := reachable_wf db hdb
  exact ⟨(applyOp_wf db op hwf).2, applyOp_longest_mono db op hwf⟩

/-- C6 witness: after a first drop the device's row is `(1, 1)`;
reset-streaks zeroes `current` while `longest` stays 1, and the
invariant holds at the concrete rows. -/
theorem streak_longest_invariant_witness :
    ((0 : Int) ≤ 0 ∧ (0 : Int) ≤ 1) ∧
    ({ deviceHash := "abc", current := 1, longest := 1,
       lastDropDate := some 0 } : Streak).longest ≤
      ({ deviceHash := "abc", current := 0, longest := 1,
         lastDropDate := some 0 } : Streak).longest :=
  ⟨(streak_longest_invariant
      (applyOp initialDB (Op.drop "abc" ⟨some "type", some 5⟩ 0 (-1)))
      (Reachable.step initialDB (Op.drop "abc" ⟨some "type", some 5⟩ 0 (-1))
        Reachable.init)
      Op.adminResetStreaks).1
    { deviceHash := "abc", current := 0, longest := 1,
      lastDropDate := some 0 } (by decide),
   (streak_longest_invariant
      (applyOp initialDB (Op.drop "abc" ⟨some "type", some 5⟩ 0 (-1)))
      (Reachable.step initialDB (Op.drop "abc" ⟨some "type", some 5⟩ 0 (-1))
        Reachable.init)
      Op.adminResetStreaks).2
    { deviceHash := "abc", current := 1, longest := 1,
      lastDropDate := some 0 } (by decide)
    { deviceHash := "abc", current := 0, longest := 1,
      lastDropDate := some 0 } (by decide) rfl⟩

end SlotBackend
